import Mathlib

/-!
Shallow embedding of the MediLens mock backend (the directory service in
`services/mockDatabase.ts` together with the entity types in `types.ts`).

The backend keeps three in-memory collections (users, appointments,
reports) mirrored to localStorage; persistence is a write-through mirror
and never affects the in-memory control flow, so the embedding models the
collections only.  Nondeterministic inputs of the source (the random id
from Math.random and the Date.now timestamp) are passed as explicit
parameters.  Logging is a write-only side channel and is not modelled.
-/

namespace MediLens

/-! ### String helpers

JavaScript `s.includes(sub)` and `s.toLowerCase()`.  Character-level
substring search; `toLowerCase` on the ASCII data in this program agrees
with `Char.toLower`. -/

/-- Does the second list start with the first list? -/
def startsWithChars : List Char → List Char → Bool
  | [], _ => true
  | _ :: _, [] => false
  | p :: ps, c :: cs => p == c && startsWithChars ps cs

/-- Does the second list contain the first list as a contiguous run? -/
def includesChars (sub : List Char) : List Char → Bool
  | [] => startsWithChars sub []
  | c :: cs => startsWithChars sub (c :: cs) || includesChars sub cs

/-- JavaScript `s.includes(sub)`. -/
def strIncludes (s sub : String) : Bool :=
  includesChars sub.toList s.toList

/-- JavaScript `s.toLowerCase()` (agrees with `Char.toLower` on the ASCII
data this program uses). -/
def toLowerStr (s : String) : String :=
  ⟨s.toList.map Char.toLower⟩

/-! ### Password hashing

`hashPassword(password) = "hashed_" + btoa(password)` from the source.
`btoa` is base64 over the code points of a latin-1 string. -/

def base64Table : List Char :=
  "ABCDEFGHIJKLMNOPQRSTUVWXYZabcdefghijklmnopqrstuvwxyz0123456789+/".toList

def b64Char (n : Nat) : Char :=
  base64Table.getD n 'A'

/-- Base64 encoding of a byte list, three bytes at a time. -/
def btoaChunks : List Nat → List Char
  | [] => []
  | [a] => [b64Char (a / 4), b64Char (a % 4 * 16), '=', '=']
  | [a, b] => [b64Char (a / 4), b64Char (a % 4 * 16 + b / 16), b64Char (b % 16 * 4), '=']
  | a :: b :: c :: rest =>
      b64Char (a / 4) :: b64Char (a % 4 * 16 + b / 16) ::
        b64Char (b % 16 * 4 + c / 64) :: b64Char (c % 64) :: btoaChunks rest

/-- JavaScript `btoa` on a latin-1 string. -/
def btoa (s : String) : String :=
  ⟨btoaChunks (s.toList.map fun c => c.toNat % 256)⟩

/-- `hashPassword` from the source: a reversible placeholder, not a real hash. -/
def hashPassword (password : String) : String :=
  "hashed_" ++ btoa password

/-! ### Entity types (`types.ts`) -/

inductive Role
  | Patient
  | Doctor
deriving DecidableEq

structure UserProfile where
  name : String
  email : String
  phone : String
  age : String
  role : Role
deriving DecidableEq

/-- Internal DB storage type: `UserProfile` plus auth data. -/
structure StoredUser where
  name : String
  email : String
  phone : String
  age : String
  role : Role
  passwordHash : String
deriving DecidableEq

/-- The `const \x7b passwordHash, ...safeProfile \x7d = user` destructuring:
the stored record with the password hash projected away. -/
def sanitize (u : StoredUser) : UserProfile :=
  { name := u.name, email := u.email, phone := u.phone, age := u.age, role := u.role }

structure Doctor where
  id : String
  name : String
  specialization : String
  experience : Nat
  fee : Nat
  slots : List String
  bio : String
  rating : Rat
  reviewCount : Nat
deriving DecidableEq

/-- The `status` field of an appointment; the source type is the string
literal type Confirmed, so this is a one-constructor type. -/
inductive AppointmentStatus
  | Confirmed
deriving DecidableEq

structure Appointment where
  id : String
  doctorId : String
  doctorName : String
  slot : String
  patientName : String
  patientEmail : String
  status : AppointmentStatus
  timestamp : Nat
deriving DecidableEq

inductive PointStatus
  | Normal
  | High
  | Low
  | Critical
  | Unknown
deriving DecidableEq

structure ExtractedDataPoint where
  item : String
  value : String
  unit : String
  referenceRange : String
  status : PointStatus
  notes : String
deriving DecidableEq

structure ConsultationPrep where
  specialistType : String
  reasoning : String
  talkingPoints : List String
deriving DecidableEq

structure TermDefinition where
  term : String
  definition : String
deriving DecidableEq

structure AnalysisResult where
  isMedicalContent : Bool
  summary : String
  voiceScript : String
  trendAnalysis : String
  extractedData : List ExtractedDataPoint
  interpretation : String
  doctorSummary : String
  questionsForDoctor : List String
  lifestyleTips : List String
  educationalInsights : List String
  definitions : List TermDefinition
  consultationPrep : ConsultationPrep
  disclaimer : String
deriving DecidableEq

structure SavedReport where
  id : String
  patientEmail : String
  timestamp : Nat
  result : AnalysisResult
deriving DecidableEq

/-! ### Result shapes of the mockDB operations -/

structure AuthResult where
  success : Bool
  user : Option UserProfile := none
  error : Option String := none
deriving DecidableEq

structure BookResult where
  success : Bool
  appointment : Option Appointment := none
  error : Option String := none
deriving DecidableEq

structure CancelResult where
  success : Bool
  message : Option String := none
  error : Option String := none
deriving DecidableEq

structure DeleteResult where
  success : Bool
  error : Option String := none
deriving DecidableEq

/-! ### Static doctor catalog (`MOCK_DOCTORS`) -/

def MOCK_DOCTORS : List Doctor :=
  [ { id := "d1", name := "Dr. Sarah Chen", specialization := "General Practitioner",
      experience := 12, fee := 80, slots := ["10:00 AM", "02:30 PM", "04:00 PM"],
      bio := "Dr. Chen focuses on preventive care and holistic health management. She has been serving the community for over a decade.",
      rating := 4.9, reviewCount := 124 },
    { id := "d2", name := "Dr. Marcus Webb", specialization := "Cardiologist",
      experience := 20, fee := 150, slots := ["09:00 AM", "11:15 AM"],
      bio := "Renowned for his work in interventional cardiology. Dr. Webb is dedicated to heart health and patient education.",
      rating := 4.8, reviewCount := 89 },
    { id := "d3", name := "Dr. Emily Patel", specialization := "Endocrinologist",
      experience := 8, fee := 120, slots := ["01:00 PM", "03:45 PM", "05:00 PM"],
      bio := "Specializes in diabetes management and hormonal disorders. Dr. Patel is known for her empathetic approach.",
      rating := 4.7, reviewCount := 56 },
    { id := "d4", name := "Dr. James Wilson", specialization := "Hematologist",
      experience := 15, fee := 135, slots := ["10:30 AM", "02:00 PM"],
      bio := "Expert in blood disorders with a background in clinical research. Dr. Wilson provides cutting-edge treatments.",
      rating := 5.0, reviewCount := 42 } ]

/-! ### The mock DB state and operations -/

/-- The three module-level collections of `mockDatabase.ts`. -/
structure DBState where
  users : List StoredUser
  appointments : List Appointment
  reports : List SavedReport
deriving DecidableEq

/-- The state at first startup: localStorage empty, every `load` falls
back to the empty collection. -/
def initialState : DBState :=
  { users := [], appointments := [], reports := [] }

/-- `mockDB.signup`. -/
def signup (profile : UserProfile) (password : String) (s : DBState) :
    AuthResult × DBState :=
  match s.users.find? (fun u => u.email == profile.email) with
  | some _ =>
      ({ success := false,
         error := some "An account with this email already exists. Please login instead." }, s)
  | none =>
      let newUser : StoredUser :=
        { name := profile.name, email := profile.email, phone := profile.phone,
          age := profile.age, role := profile.role,
          passwordHash := hashPassword password }
      ({ success := true, user := some (sanitize newUser) },
       { s with users := s.users ++ [newUser] })

/-- `mockDB.login`.  Does not mutate state, so only the result is returned. -/
def login (email password : String) (s : DBState) : AuthResult :=
  match s.users.find? (fun u => u.email == email) with
  | none =>
      { success := false, error := some "Invalid email or password." }
  | some user =>
      let inputHash := hashPassword password
      if user.passwordHash != inputHash then
        { success := false, error := some "Invalid email or password." }
      else
        { success := true, user := some (sanitize user) }

/-- `mockDB.getDoctors`.  `!specialtyFilter` in the source is true both for
a missing argument and for the empty string. -/
def getDoctors (specialtyFilter : Option String) : List Doctor :=
  match specialtyFilter with
  | none => MOCK_DOCTORS
  | some f =>
      if f = "" then MOCK_DOCTORS
      else
        MOCK_DOCTORS.filter fun d =>
          strIncludes (toLowerStr d.specialization) (toLowerStr f) ||
          strIncludes (toLowerStr f) (toLowerStr d.specialization)

/-- `mockDB.bookAppointment`.  `newId` stands for the random id and `now`
for `Date.now()`. -/
def bookAppointment (doctor : Doctor) (slot : String) (user : UserProfile)
    (newId : String) (now : Nat) (s : DBState) : BookResult × DBState :=
  let isTaken := s.appointments.any fun a =>
    a.doctorId == doctor.id && a.slot == slot && a.status == AppointmentStatus.Confirmed
  if isTaken then
    ({ success := false,
       error := some "This time slot is no longer available. Please choose another." }, s)
  else
    let newAppointment : Appointment :=
      { id := newId, doctorId := doctor.id, doctorName := doctor.name, slot := slot,
        patientName := user.name, patientEmail := user.email,
        status := AppointmentStatus.Confirmed, timestamp := now }
    ({ success := true, appointment := some newAppointment },
     { s with appointments := s.appointments ++ [newAppointment] })

/-- `mockDB.getUserAppointments`: filter to the email, then sort by
descending timestamp (the comparator `b.timestamp - a.timestamp`, a stable
sort in JavaScript). -/
def getUserAppointments (email : String) (s : DBState) : List Appointment :=
  (s.appointments.filter fun a => a.patientEmail == email).mergeSort
    fun a b => decide (b.timestamp ≤ a.timestamp)

/-- `mockDB.cancelAppointment`. -/
def cancelAppointment (appointmentId : String) (userEmail : String) (s : DBState) :
    CancelResult × DBState :=
  match s.appointments.find? (fun a => a.id == appointmentId) with
  | none =>
      ({ success := false,
         error := some "No appointment found for that selection. Please choose a valid number or appointment_id from the list." }, s)
  | some appt =>
      if appt.patientEmail != userEmail then
        ({ success := false,
           error := some "Unauthorized. You can only cancel your own appointments." }, s)
      else
        let initialLength := s.appointments.length
        let remaining := s.appointments.filter fun a => a.id != appointmentId
        if remaining.length < initialLength then
          ({ success := true,
             message := some ("Appointment cancelled:\nDoctor: " ++ appt.doctorName ++
               "\nTime: " ++ appt.slot ++ "\nappointment_id: " ++ appt.id ++
               "\nNote: Your doctor has been notified (simulated).") },
           { s with appointments := remaining })
        else
          ({ success := false,
             error := some "Cancellation failed due to an internal error. Please try again or type \x27show backend logs\x27 to debug." },
           { s with appointments := remaining })

/-- `mockDB.saveReport`. -/
def saveReport (userEmail : String) (result : AnalysisResult)
    (newId : String) (now : Nat) (s : DBState) : SavedReport × DBState :=
  let newReport : SavedReport :=
    { id := newId, patientEmail := userEmail, timestamp := now, result := result }
  (newReport, { s with reports := s.reports ++ [newReport] })

/-- `mockDB.getUserReports`: filter to the email, then sort by descending
timestamp. -/
def getUserReports (email : String) (s : DBState) : List SavedReport :=
  (s.reports.filter fun r => r.patientEmail == email).mergeSort
    fun a b => decide (b.timestamp ≤ a.timestamp)

/-- `mockDB.deleteReport`. -/
def deleteReport (reportId : String) (s : DBState) : DeleteResult × DBState :=
  let initialLength := s.reports.length
  let remaining := s.reports.filter fun r => r.id != reportId
  if remaining.length < initialLength then
    ({ success := true }, { s with reports := remaining })
  else
    ({ success := false, error := some "Report not found." }, { s with reports := remaining })

/-! ### Reachable states

States produced from the first-startup state by any sequence of mutating
operations, with arbitrary inputs (including arbitrary random ids and
timestamps).  `login` and the getters do not mutate. -/

inductive Reachable : DBState → Prop
  | init : Reachable initialState
  | signup (profile password s) : Reachable s → Reachable (signup profile password s).2
  | book (doctor slot user newId now s) :
      Reachable s → Reachable (bookAppointment doctor slot user newId now s).2
  | cancel (appointmentId userEmail s) :
      Reachable s → Reachable (cancelAppointment appointmentId userEmail s).2
  | save (userEmail result newId now s) :
      Reachable s → Reachable (saveReport userEmail result newId now s).2
  | deleteR (reportId s) : Reachable s → Reachable (deleteReport reportId s).2

/-! ### Helper lemmas -/

/-- The slot-occupancy scan of `bookAppointment`, characterised. -/
theorem any_occupies_iff (appts : List Appointment) (did slot : String) :
    (appts.any fun a =>
        a.doctorId == did && a.slot == slot && a.status == AppointmentStatus.Confirmed) = true
      ↔ ∃ a ∈ appts, a.doctorId = did ∧ a.slot = slot ∧ a.status = AppointmentStatus.Confirmed := by
  simp [List.any_eq_true, and_assoc]

/-- Removing by a predicate shortens a list exactly when some element fails
the predicate. -/
theorem length_filter_lt_iff {α : Type} (p : α → Bool) (l : List α) :
    (l.filter p).length < l.length ↔ ∃ a ∈ l, p a = false := by
  induction l with
  | nil => simp
  | cons x xs ih =>
    cases hpx : p x with
    | true =>
      simpa [List.filter_cons, hpx, Nat.succ_lt_succ_iff] using ih
    | false =>
      simp only [List.filter_cons, hpx, Bool.false_eq_true, if_false]
      exact iff_of_true (Nat.lt_succ_of_le (List.length_filter_le p xs))
        ⟨x, List.mem_cons_self x xs, hpx⟩

/-- In a list whose keys are pairwise distinct, `find?` by key locates any
given member. -/
theorem find_by_unique_key {α : Type} {β : Type} [DecidableEq β] (key : α → β)
    (l : List α) (hpw : l.Pairwise fun x y => key x ≠ key y)
    (u : α) (hu : u ∈ l) (b : β) (hb : key u = b) :
    l.find? (fun v => key v == b) = some u := by
  induction l with
  | nil => cases hu
  | cons a l ih =>
    rcases List.mem_cons.mp hu with h | h
    · subst h
      simp [List.find?_cons, hb]
    · have ha : key a ≠ b := by
        rw [← hb]
        exact (List.pairwise_cons.mp hpw).1 u h
      simp only [List.find?_cons, beq_eq_false_iff_ne.mpr ha, cond_false]
      exact ih (List.pairwise_cons.mp hpw).2 h

/-! ### State-effect lemmas: which collections each operation touches -/

theorem signup_appointments (profile : UserProfile) (password : String) (s : DBState) :
    ((signup profile password s).2).appointments = s.appointments := by
  cases hf : s.users.find? (fun u => u.email == profile.email) <;> simp [signup, hf]

theorem signup_reports (profile : UserProfile) (password : String) (s : DBState) :
    ((signup profile password s).2).reports = s.reports := by
  cases hf : s.users.find? (fun u => u.email == profile.email) <;> simp [signup, hf]

theorem book_users (doctor : Doctor) (slot : String) (user : UserProfile)
    (newId : String) (now : Nat) (s : DBState) :
    ((bookAppointment doctor slot user newId now s).2).users = s.users := by
  unfold bookAppointment
  dsimp only
  split <;> rfl

theorem book_reports (doctor : Doctor) (slot : String) (user : UserProfile)
    (newId : String) (now : Nat) (s : DBState) :
    ((bookAppointment doctor slot user newId now s).2).reports = s.reports := by
  unfold bookAppointment
  dsimp only
  split <;> rfl

theorem cancel_users (appointmentId userEmail : String) (s : DBState) :
    ((cancelAppointment appointmentId userEmail s).2).users = s.users := by
  unfold cancelAppointment
  cases hf : s.appointments.find? (fun a => a.id == appointmentId) with
  | none => rfl
  | some appt =>
    dsimp only
    split
    · rfl
    · split <;> rfl

theorem cancel_reports (appointmentId userEmail : String) (s : DBState) :
    ((cancelAppointment appointmentId userEmail s).2).reports = s.reports := by
  unfold cancelAppointment
  cases hf : s.appointments.find? (fun a => a.id == appointmentId) with
  | none => rfl
  | some appt =>
    dsimp only
    split
    · rfl
    · split <;> rfl

theorem save_users (userEmail : String) (result : AnalysisResult)
    (newId : String) (now : Nat) (s : DBState) :
    ((saveReport userEmail result newId now s).2).users = s.users := rfl

theorem save_appointments (userEmail : String) (result : AnalysisResult)
    (newId : String) (now : Nat) (s : DBState) :
    ((saveReport userEmail result newId now s).2).appointments = s.appointments := rfl

theorem delete_users (reportId : String) (s : DBState) :
    ((deleteReport reportId s).2).users = s.users := by
  unfold deleteReport
  dsimp only
  split <;> rfl

theorem delete_appointments (reportId : String) (s : DBState) :
    ((deleteReport reportId s).2).appointments = s.appointments := by
  unfold deleteReport
  dsimp only
  split <;> rfl

/-! ### Invariants of reachable states -/

/-- At most one Confirmed appointment per (doctorId, slot) pair. -/
def ExclusiveSlots (s : DBState) : Prop :=
  s.appointments.Pairwise fun a b =>
    ¬(a.doctorId = b.doctorId ∧ a.slot = b.slot ∧
      a.status = AppointmentStatus.Confirmed ∧ b.status = AppointmentStatus.Confirmed)

/-- Exactly one account per email. -/
def UniqueEmails (s : DBState) : Prop :=
  s.users.Pairwise fun u v => u.email ≠ v.email

theorem reachable_uniqueEmails {s : DBState} (h : Reachable s) : UniqueEmails s := by
  induction h with
  | init => exact List.Pairwise.nil
  | signup profile password s hs ih =>
    unfold UniqueEmails at *
    cases hf : s.users.find? (fun u => u.email == profile.email) with
    | some u =>
      simp only [signup, hf]
      exact ih
    | none =>
      have hall : ∀ u ∈ s.users, u.email ≠ profile.email := by
        intro u hu
        have := List.find?_eq_none.mp hf u hu
        simpa using this
      simp only [signup, hf]
      rw [List.pairwise_append]
      exact ⟨ih, List.pairwise_singleton _ _, fun u hu v hv => by
        simp only [List.mem_singleton] at hv
        subst hv
        exact hall u hu⟩
  | book doctor slot user newId now s hs ih =>
    unfold UniqueEmails at *
    rw [book_users]
    exact ih
  | cancel appointmentId userEmail s hs ih =>
    unfold UniqueEmails at *
    rw [cancel_users]
    exact ih
  | save userEmail result newId now s hs ih =>
    unfold UniqueEmails at *
    rw [save_users]
    exact ih
  | deleteR reportId s hs ih =>
    unfold UniqueEmails at *
    rw [delete_users]
    exact ih

theorem reachable_exclusiveSlots {s : DBState} (h : Reachable s) : ExclusiveSlots s := by
  induction h with
  | init => exact List.Pairwise.nil
  | signup profile password s hs ih =>
    unfold ExclusiveSlots at *
    rw [signup_appointments]
    exact ih
  | book doctor slot user newId now s hs ih =>
    unfold ExclusiveSlots at *
    unfold bookAppointment
    dsimp only
    split
    · exact ih
    · rename_i hNotTaken
      rw [List.pairwise_append]
      refine ⟨ih, List.pairwise_singleton _ _, fun a ha b hb => ?_⟩
      simp only [List.mem_singleton] at hb
      subst hb
      have hfree : ¬ ∃ a ∈ s.appointments,
          a.doctorId = doctor.id ∧ a.slot = slot ∧
            a.status = AppointmentStatus.Confirmed := by
        rw [← any_occupies_iff]
        simpa using hNotTaken
      rintro ⟨h1, h2, h3, _⟩
      exact hfree ⟨a, ha, h1, h2, h3⟩
  | cancel appointmentId userEmail s hs ih =>
    unfold ExclusiveSlots at *
    unfold cancelAppointment
    cases hf : s.appointments.find? (fun a => a.id == appointmentId) with
    | none => exact ih
    | some appt =>
      dsimp only
      split
      · exact ih
      · split <;> exact List.Pairwise.sublist (List.filter_sublist _) ih
  | save userEmail result newId now s hs ih =>
    unfold ExclusiveSlots at *
    rw [save_appointments]
    exact ih
  | deleteR reportId s hs ih =>
    unfold ExclusiveSlots at *
    rw [delete_appointments]
    exact ih

/-! ### Operation characterizations -/

/-- `bookAppointment` succeeds exactly when no stored Confirmed appointment
occupies the requested (doctorId, slot) pair. -/
theorem book_success_iff (d : Doctor) (slot : String) (user : UserProfile)
    (newId : String) (now : Nat) (s : DBState) :
    (bookAppointment d slot user newId now s).1.success = true
      ↔ ¬ ∃ a ∈ s.appointments, a.doctorId = d.id ∧ a.slot = slot ∧
          a.status = AppointmentStatus.Confirmed := by
  unfold bookAppointment
  dsimp only
  split
  · rename_i htaken
    rw [any_occupies_iff] at htaken
    simpa using htaken
  · rename_i htaken
    have : ¬ ∃ a ∈ s.appointments, a.doctorId = d.id ∧ a.slot = slot ∧
        a.status = AppointmentStatus.Confirmed := by
      rw [← any_occupies_iff]
      simpa using htaken
    simpa using this

/-- When the slot is taken, `bookAppointment` reports the slot-unavailable
message and leaves the state unchanged. -/
theorem book_fail_eq (d : Doctor) (slot : String) (user : UserProfile)
    (newId : String) (now : Nat) (s : DBState)
    (h : ∃ a ∈ s.appointments, a.doctorId = d.id ∧ a.slot = slot ∧
        a.status = AppointmentStatus.Confirmed) :
    bookAppointment d slot user newId now s =
      ({ success := false,
         error := some "This time slot is no longer available. Please choose another." }, s) := by
  unfold bookAppointment
  dsimp only
  rw [if_pos ((any_occupies_iff s.appointments d.id slot).mpr h)]

/-- On success, `cancelAppointment` leaves exactly the appointments whose id
differs from the cancelled one. -/
theorem cancel_success_appointments (appointmentId userEmail : String) (s : DBState)
    (h : (cancelAppointment appointmentId userEmail s).1.success = true) :
    ((cancelAppointment appointmentId userEmail s).2).appointments
      = s.appointments.filter (fun a => a.id != appointmentId) := by
  unfold cancelAppointment at h ⊢
  dsimp only at h ⊢
  split at h
  · simp at h
  · rename_i appt heq
    split at h
    · simp at h
    · rename_i hown
      rw [if_neg hown]
      split at h
      · rename_i hlen
        rw [if_pos hlen]
      · rename_i hlen
        rw [if_neg hlen]

/-- The appointment status type has a single value. -/
theorem status_confirmed (st : AppointmentStatus) : st = AppointmentStatus.Confirmed := by
  cases st
  rfl

/-- Every string contains the empty string. -/
theorem strIncludes_empty (s : String) : strIncludes s "" = true := by
  show includesChars [] s.toList = true
  cases s.toList <;> simp [includesChars, startsWithChars]

/-! ### Concrete fixtures used by the witnesses -/

def doctorD1 : Doctor := MOCK_DOCTORS.get ⟨0, by decide⟩

def aliceProfile : UserProfile :=
  { name := "Alice", email := "alice@x.com", phone := "1", age := "30", role := Role.Patient }

def bobProfile : UserProfile :=
  { name := "Bob", email := "bob@x.com", phone := "2", age := "40", role := Role.Patient }

/-- The appointment created by booking doctor d1 at 10:00 AM for Alice with
id A1 at time 100. -/
def apptA : Appointment :=
  { id := "A1", doctorId := "d1", doctorName := "Dr. Sarah Chen", slot := "10:00 AM",
    patientName := "Alice", patientEmail := "alice@x.com",
    status := AppointmentStatus.Confirmed, timestamp := 100 }

/-- State after Alice books d1 at 10:00 AM from the first-startup state. -/
def stateA : DBState :=
  (bookAppointment doctorD1 "10:00 AM" aliceProfile "A1" 100 initialState).2

/-! ### Claim theorems -/

/-- C1: slot exclusivity.  In every reachable state: `bookAppointment`
succeeds exactly when no stored Confirmed appointment occupies the
requested (doctorId, slot) pair, and fails with the slot-unavailable error
(mutating nothing) when one does; after a successful `cancelAppointment` of
the occupying appointment, booking the same pair succeeds again for any
user; and the state holds at most one Confirmed appointment per
(doctorId, slot) pair. -/
theorem C1_slot_exclusivity (s : DBState) (hs : Reachable s) :
    (∀ (d : Doctor) (slot : String) (user : UserProfile) (newId : String) (now : Nat),
      ((bookAppointment d slot user newId now s).1.success = true
        ↔ ¬ ∃ a ∈ s.appointments, a.doctorId = d.id ∧ a.slot = slot ∧
            a.status = AppointmentStatus.Confirmed)
      ∧ ((∃ a ∈ s.appointments, a.doctorId = d.id ∧ a.slot = slot ∧
            a.status = AppointmentStatus.Confirmed) →
          bookAppointment d slot user newId now s =
            ({ success := false,
               error := some "This time slot is no longer available. Please choose another." }, s)))
    ∧ (∀ a ∈ s.appointments, ∀ (d : Doctor) (slot : String) (e : String),
        d.id = a.doctorId → slot = a.slot →
        (cancelAppointment a.id e s).1.success = true →
        ∀ (user : UserProfile) (newId : String) (now : Nat),
          (bookAppointment d slot user newId now (cancelAppointment a.id e s).2).1.success = true)
    ∧ s.appointments.Pairwise (fun a b =>
        ¬(a.doctorId = b.doctorId ∧ a.slot = b.slot ∧
          a.status = AppointmentStatus.Confirmed ∧ b.status = AppointmentStatus.Confirmed)) := by
  refine ⟨fun d slot user newId now =>
      ⟨book_success_iff d slot user newId now s, book_fail_eq d slot user newId now s⟩,
    ?_, reachable_exclusiveSlots hs⟩
  intro a ha d slot e hd hslot hc user newId now
  rw [book_success_iff]
  rintro ⟨b, hb, hbd, hbs, hbst⟩
  rw [cancel_success_appointments a.id e s hc] at hb
  have hbmem : b ∈ s.appointments := (List.mem_filter.mp hb).1
  have hbid : (b.id != a.id) = true := (List.mem_filter.mp hb).2
  have hbne : b ≠ a := by
    intro hba
    subst hba
    simp at hbid
  have hpw : ExclusiveSlots s := reachable_exclusiveSlots hs
  have hsym : Symmetric (fun a b : Appointment =>
      ¬(a.doctorId = b.doctorId ∧ a.slot = b.slot ∧
        a.status = AppointmentStatus.Confirmed ∧ b.status = AppointmentStatus.Confirmed)) := by
    intro x y hxy hyx
    exact hxy ⟨hyx.1.symm, hyx.2.1.symm, hyx.2.2.2, hyx.2.2.1⟩
  exact (List.Pairwise.forall hsym hpw) hbmem ha hbne
    ⟨by rw [hbd, hd], by rw [hbs, hslot], hbst, status_confirmed _⟩

/-- Witness for C1 at a concrete run: Alice books d1 at 10:00 AM, cancels
it, then Bob books the same slot successfully. -/
theorem C1_slot_exclusivity_witness :
    (bookAppointment doctorD1 "10:00 AM" bobProfile "B1" 200
        (cancelAppointment "A1" "alice@x.com" stateA).2).1.success = true := by
  have h := (C1_slot_exclusivity stateA
      (Reachable.book doctorD1 "10:00 AM" aliceProfile "A1" 100 initialState Reachable.init)).2.1
  exact h apptA (by decide) doctorD1 "10:00 AM" "alice@x.com" (by decide) (by decide)
    (by decide) bobProfile "B1" 200

/-- C2: for a stored appointment `a` (ids being the unique random tokens
that identify appointments) and any email other than that of the owner,
`cancelAppointment(a.id, e)` fails with the Unauthorized error and returns
the state unchanged, so `a` is still present and booking its
(doctorId, slot) pair still fails. -/
theorem C2_cancel_unauthorized (s : DBState) (a : Appointment) (e : String)
    (hids : s.appointments.Pairwise fun x y => x.id ≠ y.id)
    (ha : a ∈ s.appointments) (hne : e ≠ a.patientEmail) :
    cancelAppointment a.id e s =
      ({ success := false,
         error := some "Unauthorized. You can only cancel your own appointments." }, s)
    ∧ a ∈ ((cancelAppointment a.id e s).2).appointments
    ∧ ∀ (d : Doctor) (user : UserProfile) (newId : String) (now : Nat),
        d.id = a.doctorId →
        bookAppointment d a.slot user newId now (cancelAppointment a.id e s).2 =
          ({ success := false,
             error := some "This time slot is no longer available. Please choose another." },
           (cancelAppointment a.id e s).2) := by
  have hfind : s.appointments.find? (fun v => v.id == a.id) = some a :=
    find_by_unique_key (fun x => x.id) s.appointments hids a ha a.id rfl
  have hcancel : cancelAppointment a.id e s =
      ({ success := false,
         error := some "Unauthorized. You can only cancel your own appointments." }, s) := by
    unfold cancelAppointment
    rw [hfind]
    dsimp only
    rw [if_pos (bne_iff_ne.mpr fun h => hne h.symm)]
  refine ⟨hcancel, ?_, ?_⟩
  · rw [hcancel]
    exact ha
  · intro d user newId now hd
    rw [hcancel]
    exact book_fail_eq d a.slot user newId now s
      ⟨a, ha, by rw [hd], rfl, status_confirmed _⟩

/-- Witness for C2: Bob cannot cancel the appointment of Alice, and Bob still
cannot book the occupied slot afterwards. -/
theorem C2_cancel_unauthorized_witness :
    cancelAppointment "A1" "bob@x.com" stateA =
      ({ success := false,
         error := some "Unauthorized. You can only cancel your own appointments." }, stateA)
    ∧ bookAppointment doctorD1 "10:00 AM" bobProfile "B2" 300
        (cancelAppointment "A1" "bob@x.com" stateA).2 =
      ({ success := false,
         error := some "This time slot is no longer available. Please choose another." },
       (cancelAppointment "A1" "bob@x.com" stateA).2) := by
  have h := C2_cancel_unauthorized stateA apptA "bob@x.com" (by decide) (by decide) (by decide)
  exact ⟨h.1, h.2.2 doctorD1 bobProfile "B2" 300 (by decide)⟩

/-- C9: the internal-error branch of `cancelAppointment` is unreachable.
Whenever the id lookup finds an appointment and the ownership check passes,
removing every appointment with that id strictly shrinks the collection, so
the call takes the success branch. -/
theorem C9_internal_error_unreachable (s : DBState) (apptId e : String) (a : Appointment)
    (hfind : s.appointments.find? (fun x => x.id == apptId) = some a)
    (hown : a.patientEmail = e) :
    (cancelAppointment apptId e s).1.success = true
    ∧ (cancelAppointment apptId e s).1.error = none := by
  have hmem : a ∈ s.appointments := List.mem_of_find?_eq_some hfind
  have hid := List.find?_some hfind
  have hideq : a.id = apptId := by simpa using hid
  have hlen : (s.appointments.filter fun x => x.id != apptId).length < s.appointments.length := by
    rw [length_filter_lt_iff]
    exact ⟨a, hmem, by simp [hideq]⟩
  have hcond : ¬ ((a.patientEmail != e) = true) := by simp [hown]
  unfold cancelAppointment
  rw [hfind]
  dsimp only
  rw [if_neg hcond, if_pos hlen]
  exact ⟨rfl, rfl⟩

/-- Witness for C9: Alice cancels her own appointment and hits the success
branch. -/
theorem C9_internal_error_unreachable_witness :
    (cancelAppointment "A1" "alice@x.com" stateA).1.success = true
    ∧ (cancelAppointment "A1" "alice@x.com" stateA).1.error = none :=
  C9_internal_error_unreachable stateA "A1" "alice@x.com" apptA (by decide) (by decide)

/-- The stored record signup creates for Alice with password pw1. -/
def storedAlice : StoredUser :=
  { name := "Alice", email := "alice@x.com", phone := "1", age := "30", role := Role.Patient,
    passwordHash := hashPassword "pw1" }

/-- State after Alice signs up with password pw1 from the first-startup
state. -/
def stateU : DBState :=
  (signup aliceProfile "pw1" initialState).2

/-- C3: `login(email, password)` succeeds exactly when some stored account
has that email and its stored hash equals `hashPassword(password)` (stated
for reachable states, whose emails are unique); in particular, after a
fresh signup with password `p`, login with `p` succeeds and login with any
password whose hash differs fails. -/
theorem C3_login_iff (s : DBState) (hs : Reachable s) :
    (∀ email password,
      (login email password s).success = true
        ↔ ∃ u ∈ s.users, u.email = email ∧ u.passwordHash = hashPassword password)
    ∧ (∀ (profile : UserProfile) (password : String),
        s.users.find? (fun u => u.email == profile.email) = none →
        (login profile.email password (signup profile password s).2).success = true
        ∧ ∀ p', hashPassword p' ≠ hashPassword password →
            (login profile.email p' (signup profile password s).2).success = false) := by
  constructor
  · intro email password
    unfold login
    cases hf : s.users.find? (fun u => u.email == email) with
    | none =>
      refine iff_of_false (by simp) ?_
      rintro ⟨u, hu, hue, _⟩
      have := List.find?_eq_none.mp hf u hu
      simp [hue] at this
    | some u =>
      dsimp only
      have humem : u ∈ s.users := List.mem_of_find?_eq_some hf
      have hue : u.email = email := by simpa using List.find?_some hf
      by_cases hpw : u.passwordHash = hashPassword password
      · rw [if_neg (by simp [hpw])]
        exact iff_of_true rfl ⟨u, humem, hue, hpw⟩
      · rw [if_pos (bne_iff_ne.mpr hpw)]
        refine iff_of_false (by simp) ?_
        rintro ⟨v, hv, hve, hvp⟩
        have huniq : s.users.Pairwise (fun u v => u.email ≠ v.email) :=
          reachable_uniqueEmails hs
        have hfv : s.users.find? (fun w => w.email == email) = some v :=
          find_by_unique_key (fun w => w.email) s.users huniq v hv email hve
        rw [hf] at hfv
        injection hfv with huv
        exact hpw (huv ▸ hvp)
  · intro profile password hnone
    have hfind : ((signup profile password s).2).users.find?
        (fun u => u.email == profile.email)
        = some { name := profile.name, email := profile.email, phone := profile.phone,
                 age := profile.age, role := profile.role,
                 passwordHash := hashPassword password } := by
      unfold signup
      rw [hnone]
      dsimp only
      rw [List.find?_append, hnone]
      simp
    constructor
    · unfold login
      rw [hfind]
      dsimp only
      rw [if_neg (by simp)]
    · intro p' hp'
      unfold login
      rw [hfind]
      dsimp only
      rw [if_pos (bne_iff_ne.mpr fun h => hp' h.symm)]

/-- Witness for C3: after signup with pw1, login with pw1 succeeds and
login with pw2 fails. -/
theorem C3_login_iff_witness :
    (login "alice@x.com" "pw1" stateU).success = true
    ∧ (login "alice@x.com" "pw2" stateU).success = false := by
  have h := (C3_login_iff initialState Reachable.init).2 aliceProfile "pw1" (by decide)
  exact ⟨h.1, h.2 "pw2" (by decide)⟩

/-- C4: signup with an email that already has an account fails with the
duplicate-account error and leaves the whole state (in particular the stored hash
of the first account) unchanged; signup with a fresh email succeeds,
stores the hashed password, and the returned payload is the plain profile,
which carries no password hash field. -/
theorem C4_signup_duplicate (s : DBState) (profile : UserProfile) (password : String) :
    ((∃ u ∈ s.users, u.email = profile.email) →
      signup profile password s =
        ({ success := false,
           error := some "An account with this email already exists. Please login instead." }, s))
    ∧ ((¬ ∃ u ∈ s.users, u.email = profile.email) →
      (signup profile password s).1.success = true
      ∧ (signup profile password s).1.user = some profile
      ∧ ((signup profile password s).2).users
          = s.users ++ [{ name := profile.name, email := profile.email,
                          phone := profile.phone, age := profile.age, role := profile.role,
                          passwordHash := hashPassword password }]) := by
  constructor
  · rintro ⟨u, hu, hue⟩
    rcases ho : s.users.find? (fun v => v.email == profile.email) with _ | v
    · exact absurd (List.find?_eq_none.mp ho u hu) (by simp [hue])
    · unfold signup
      rw [ho]
  · intro hnon
    have hnone : s.users.find? (fun v => v.email == profile.email) = none := by
      rw [List.find?_eq_none]
      intro x hx hbe
      exact hnon ⟨x, hx, by simpa using hbe⟩
    unfold signup
    rw [hnone]
    exact ⟨rfl, rfl, rfl⟩

/-- Witness for C4: a second signup with the email of Alice fails and changes
nothing; the first signup returned the hash-free profile. -/
theorem C4_signup_duplicate_witness :
    signup aliceProfile "pw2" stateU =
      ({ success := false,
         error := some "An account with this email already exists. Please login instead." },
       stateU)
    ∧ (signup aliceProfile "pw1" initialState).1.user = some aliceProfile := by
  refine ⟨(C4_signup_duplicate stateU aliceProfile "pw2").1 ?_,
    ((C4_signup_duplicate initialState aliceProfile "pw1").2 (by decide)).2.1⟩
  exact ⟨storedAlice, by decide, rfl⟩

/-- C6: login failure is indistinguishable between "no such account" and
"wrong password": both runs return the identical error value. -/
theorem C6_login_indistinguishable (s₁ s₂ : DBState) (e₁ p₁ e₂ p₂ : String)
    (h₁ : s₁.users.find? (fun u => u.email == e₁) = none)
    (u : StoredUser) (h₂ : s₂.users.find? (fun u => u.email == e₂) = some u)
    (hwrong : u.passwordHash ≠ hashPassword p₂) :
    login e₁ p₁ s₁ = login e₂ p₂ s₂
    ∧ login e₁ p₁ s₁ =
        { success := false, error := some "Invalid email or password." } := by
  have hl1 : login e₁ p₁ s₁ =
      { success := false, error := some "Invalid email or password." } := by
    unfold login
    rw [h₁]
  have hl2 : login e₂ p₂ s₂ =
      { success := false, error := some "Invalid email or password." } := by
    unfold login
    rw [h₂]
    dsimp only
    rw [if_pos (bne_iff_ne.mpr hwrong)]
  exact ⟨hl1.trans hl2.symm, hl1⟩

/-- Witness for C6: an unknown email and a wrong password produce the same
result value. -/
theorem C6_login_indistinguishable_witness :
    login "ghost@x.com" "pw" initialState = login "alice@x.com" "pw2" stateU
    ∧ login "ghost@x.com" "pw" initialState =
        { success := false, error := some "Invalid email or password." } :=
  C6_login_indistinguishable initialState stateU "ghost@x.com" "pw" "alice@x.com" "pw2"
    (by decide) storedAlice (by decide) (by decide)

/-- The booking by Alice of d1 at 10:00 AM with id A1 at time 5. -/
def apptA1 : Appointment :=
  { id := "A1", doctorId := "d1", doctorName := "Dr. Sarah Chen", slot := "10:00 AM",
    patientName := "Alice", patientEmail := "alice@x.com",
    status := AppointmentStatus.Confirmed, timestamp := 5 }

/-- The booking by Alice of d1 at 02:30 PM with id A2, also at time 5. -/
def apptA2 : Appointment :=
  { id := "A2", doctorId := "d1", doctorName := "Dr. Sarah Chen", slot := "02:30 PM",
    patientName := "Alice", patientEmail := "alice@x.com",
    status := AppointmentStatus.Confirmed, timestamp := 5 }

/-- A reachable state with two appointments sharing one creation
timestamp: Alice books two slots during the same millisecond. -/
def dupTimesState : DBState :=
  (bookAppointment doctorD1 "02:30 PM" aliceProfile "A2" 5
    (bookAppointment doctorD1 "10:00 AM" aliceProfile "A1" 5 initialState).2).2

/-- C5 counterexample: with two stored appointments created at the same
timestamp, the returned list is not strictly descending in timestamp, so
the claim as stated (strict descending order) fails. -/
theorem C5_strict_order_counterexample :
    ¬ ((getUserAppointments "alice@x.com" dupTimesState).Pairwise
        fun a b => b.timestamp < a.timestamp) := by
  intro hpw
  have hfil : dupTimesState.appointments.filter (fun a => a.patientEmail == "alice@x.com")
      = [apptA1, apptA2] := by decide
  have hperm : (getUserAppointments "alice@x.com" dupTimesState).Perm [apptA1, apptA2] := by
    have h := List.mergeSort_perm
      (dupTimesState.appointments.filter fun a => a.patientEmail == "alice@x.com")
      (fun a b => decide (b.timestamp ≤ a.timestamp))
    rw [hfil] at h
    exact h
  have htime : ∀ x ∈ getUserAppointments "alice@x.com" dupTimesState, x.timestamp = 5 := by
    intro x hx
    have hx2 := hperm.mem_iff.mp hx
    simp only [List.mem_cons, List.not_mem_nil, or_false] at hx2
    rcases hx2 with h | h <;> subst h <;> rfl
  rcases hres : getUserAppointments "alice@x.com" dupTimesState with _ | ⟨u, _ | ⟨v, rest⟩⟩
  · rw [hres] at hperm
    exact absurd hperm.length_eq (by simp)
  · rw [hres] at hperm
    exact absurd hperm.length_eq (by simp)
  · have hu : u.timestamp = 5 := htime u (by rw [hres]; exact List.mem_cons_self _ _)
    have hv : v.timestamp = 5 := htime v (by rw [hres]; simp)
    rw [hres] at hpw
    have hlt := (List.pairwise_cons.mp hpw).1 v (by simp)
    omega

/-- C5 (amended): `getUserAppointments` and `getUserReports` return exactly
the stored entities with the requested patientEmail, ordered by descending
creation timestamp, non-strictly: entities created in the same millisecond
share a timestamp and appear in consecutive positions in either order. -/
theorem C5_user_lists (email : String) (s : DBState) :
    ((getUserAppointments email s).Perm
        (s.appointments.filter fun a => a.patientEmail == email)
      ∧ (∀ a ∈ getUserAppointments email s, a.patientEmail = email)
      ∧ (getUserAppointments email s).Pairwise fun a b => b.timestamp ≤ a.timestamp)
    ∧ ((getUserReports email s).Perm
        (s.reports.filter fun r => r.patientEmail == email)
      ∧ (∀ r ∈ getUserReports email s, r.patientEmail = email)
      ∧ (getUserReports email s).Pairwise fun a b => b.timestamp ≤ a.timestamp) := by
  unfold getUserAppointments getUserReports
  constructor
  · refine ⟨List.mergeSort_perm _ _, ?_, ?_⟩
    · intro a ha
      have hmem := List.mem_mergeSort.mp ha
      simpa using (List.mem_filter.mp hmem).2
    · have hpair := @List.sorted_mergeSort Appointment
        (fun a b => decide (b.timestamp ≤ a.timestamp))
        (fun a b c hab hbc => by
          simp only [decide_eq_true_eq] at hab hbc ⊢
          omega)
        (fun a b => by simpa using Nat.le_total b.timestamp a.timestamp)
        (s.appointments.filter fun a => a.patientEmail == email)
      exact hpair.imp fun h => by simpa using h
  · refine ⟨List.mergeSort_perm _ _, ?_, ?_⟩
    · intro r hr
      have hmem := List.mem_mergeSort.mp hr
      simpa using (List.mem_filter.mp hmem).2
    · have hpair := @List.sorted_mergeSort SavedReport
        (fun a b => decide (b.timestamp ≤ a.timestamp))
        (fun a b c hab hbc => by
          simp only [decide_eq_true_eq] at hab hbc ⊢
          omega)
        (fun a b => by simpa using Nat.le_total b.timestamp a.timestamp)
        (s.reports.filter fun r => r.patientEmail == email)
      exact hpair.imp fun h => by simpa using h

/-- Witness for C5 (amended), extracting the ownership fact for a concrete
member of a concrete listing. -/
theorem C5_user_lists_witness : apptA1.patientEmail = "alice@x.com" := by
  have h := (C5_user_lists "alice@x.com" dupTimesState).1.2.1
  exact h apptA1 (List.mem_mergeSort.mpr (by decide))

/-- C7: without a filter, `getDoctors` returns the full static catalog in
seed order; with a filter string `f`, it returns exactly the doctors whose
specialization case-insensitively contains `f` or is contained in `f`
(in seed order, since `filter` preserves order).  The modelled function is
total, so no input raises. -/
theorem C7_getDoctors_filter :
    getDoctors none = MOCK_DOCTORS
    ∧ ∀ f : String,
        getDoctors (some f) =
          MOCK_DOCTORS.filter fun d =>
            strIncludes (toLowerStr d.specialization) (toLowerStr f) ||
            strIncludes (toLowerStr f) (toLowerStr d.specialization) := by
  refine ⟨rfl, fun f => ?_⟩
  unfold getDoctors
  dsimp only
  by_cases hf : f = ""
  · subst hf
    rw [if_pos rfl]
    refine (List.filter_eq_self.mpr fun d hd => ?_).symm
    have h1 : strIncludes (toLowerStr d.specialization) (toLowerStr "") = true := by
      have he : toLowerStr "" = "" := rfl
      rw [he]
      exact strIncludes_empty _
    simp [h1]
  · rw [if_neg hf]

/-- C10: the empty string is falsy in the source, so
`getDoctors(\"\")` behaves exactly like `getDoctors()` and returns the full
catalog rather than an empty or filtered sequence. -/
theorem C10_empty_filter_full_catalog :
    getDoctors (some "") = getDoctors none ∧ getDoctors (some "") = MOCK_DOCTORS :=
  ⟨rfl, rfl⟩

/-- A minimal AnalysisResult document for report fixtures. -/
def emptyAnalysis : AnalysisResult :=
  { isMedicalContent := false, summary := "", voiceScript := "", trendAnalysis := "",
    extractedData := [], interpretation := "", doctorSummary := "",
    questionsForDoctor := [], lifestyleTips := [], educationalInsights := [],
    definitions := [],
    consultationPrep := { specialistType := "", reasoning := "", talkingPoints := [] },
    disclaimer := "" }

def reportR1 : SavedReport :=
  { id := "R1", patientEmail := "alice@x.com", timestamp := 10, result := emptyAnalysis }

def reportState : DBState :=
  { users := [], appointments := [], reports := [reportR1] }

/-- C8: `deleteReport` fails with the not-found error exactly when no
stored report has the given id, leaving the reports unchanged in that case;
when such a report exists it succeeds and removes every report with that
id.  The operation takes no caller identity at all, so deletion succeeds
for a report with any owner email — there is no ownership check. -/
theorem C8_deleteReport_no_ownership (reportId : String) (s : DBState) :
    ((deleteReport reportId s).1 = { success := false, error := some "Report not found." }
      ↔ ¬ ∃ r ∈ s.reports, r.id = reportId)
    ∧ ((¬ ∃ r ∈ s.reports, r.id = reportId) → (deleteReport reportId s).2 = s)
    ∧ ((∃ r ∈ s.reports, r.id = reportId) →
        (deleteReport reportId s).1 = { success := true }
        ∧ ∀ r' ∈ ((deleteReport reportId s).2).reports, r'.id ≠ reportId) := by
  by_cases hex : ∃ r ∈ s.reports, r.id = reportId
  · have hlen : (s.reports.filter fun r => r.id != reportId).length < s.reports.length := by
      rw [length_filter_lt_iff]
      obtain ⟨r, hr, hrid⟩ := hex
      exact ⟨r, hr, by simp [hrid]⟩
    unfold deleteReport
    dsimp only
    rw [if_pos hlen]
    refine ⟨iff_of_false (by simp) (fun h => h hex), fun h => absurd hex h,
      fun _ => ⟨rfl, ?_⟩⟩
    intro r' hr'
    have := (List.mem_filter.mp hr').2
    simpa using this
  · have hall : ∀ r ∈ s.reports, (r.id != reportId) = true := fun r hr =>
      bne_iff_ne.mpr fun h => hex ⟨r, hr, h⟩
    have hfe : s.reports.filter (fun r => r.id != reportId) = s.reports :=
      List.filter_eq_self.mpr hall
    have hnlen : ¬ ((s.reports.filter fun r => r.id != reportId).length
        < s.reports.length) := by
      rw [hfe]
      exact Nat.lt_irrefl _
    unfold deleteReport
    dsimp only
    rw [if_neg hnlen]
    refine ⟨iff_of_true rfl hex, fun _ => ?_, fun h => absurd h hex⟩
    dsimp only
    rw [hfe]

/-- Witness for C8: deleting the stored report succeeds without any caller
identity; deleting a missing id leaves the state unchanged. -/
theorem C8_deleteReport_no_ownership_witness :
    (deleteReport "R1" reportState).1 = { success := true }
    ∧ (deleteReport "R9" reportState).2 = reportState := by
  refine ⟨((C8_deleteReport_no_ownership "R1" reportState).2.2
      ⟨reportR1, List.mem_cons_self _ _, rfl⟩).1,
    (C8_deleteReport_no_ownership "R9" reportState).2.1 ?_⟩
  rintro ⟨r, hr, hrid⟩
  simp only [reportState, List.mem_singleton] at hr
  subst hr
  exact absurd hrid (by decide)

end MediLens
